import Mathlib

/-!
Verification development for the web search and content-extraction pipeline of
mdllama (file src/mdllama/web_search.py).

The Python code is shallowly embedded here.  Network I/O (requests.Session.get),
the stdlib JSON parser, the stdlib html.unescape entity table, Python's regex
engine applied to the hand-written search-result patterns, and the BeautifulSoup
DOM are external collaborators: they are modelled as components of an explicit
environment (structure Env below).  Everything the repository itself computes -
filtering, slicing, fallback chains, truncation, text cleaning, formatting - is
translated directly into executable Lean functions.  Strings are Python str
values: sequences of unicode code points, so Python slicing s[:n] is List.take
on the character list and len(s) is the character count.
-/

namespace Mdllama

/-! ## Character classes used by the Python regexes in _clean_text

pyIsSpace is the character set matched by the regex class \s for Python str
patterns (ASCII whitespace, the information separators, and the unicode
whitespace code points); Python's str.split() and str.strip() use the same set.
isStrippedCtl is the class [\x00-\x08\x0b\x0c\x0e-\x1f\x7f-\x84\x86-\x9f]
removed by _clean_text.
-/

def pyIsSpace (c : Char) : Bool :=
  [0x09, 0x0a, 0x0b, 0x0c, 0x0d, 0x1c, 0x1d, 0x1e, 0x1f, 0x20, 0x85, 0xa0,
   0x1680, 0x2028, 0x2029, 0x202f, 0x205f, 0x3000].contains c.val
  || (0x2000 ≤ c.val && c.val ≤ 0x200a)

def isStrippedCtl (c : Char) : Bool :=
  c.val ≤ 0x08 || c.val == 0x0b || c.val == 0x0c
  || (0x0e ≤ c.val && c.val ≤ 0x1f)
  || (0x7f ≤ c.val && c.val ≤ 0x84)
  || (0x86 ≤ c.val && c.val ≤ 0x9f)

/-- re.sub(p+, ' ', text): replace every maximal run of characters satisfying
p by a single space.  The Bool argument records whether the previous character
was inside a run. -/
def collapseRunsGo (p : Char → Bool) : Bool → List Char → List Char
  | _, [] => []
  | inRun, c :: cs =>
    if p c then
      if inRun then collapseRunsGo p true cs
      else ' ' :: collapseRunsGo p true cs
    else c :: collapseRunsGo p false cs

/-- re.sub(r'\s+', ' ', text). -/
def collapseWs (l : List Char) : List Char := collapseRunsGo pyIsSpace false l

/-- re.sub(r'[\x00-\x08\x0b\x0c\x0e-\x1f\x7f-\x84\x86-\x9f]', '', text). -/
def stripCtl (l : List Char) : List Char := l.filter fun c => !isStrippedCtl c

/-- Index of the last occurrence of a character in a list. -/
def lastIdxOf (a : Char) : List Char → Option Nat
  | [] => none
  | c :: cs =>
    match lastIdxOf a cs with
    | some i => some (i + 1)
    | none => if c = a then some 0 else none

/-- Substitution of the Python patterns r'\n\s*\n\s*\n+' (k = 2) and
r'\n\s*\n' (k = 1) by "\n\n".  A match starts at a newline whose maximal
whitespace run contains at least k further newlines and extends (greedy \s*
with backtracking) to the last newline of that run; scanning resumes after
the replaced region.  Fuel-based so the kernel can evaluate it; the fuel is
the length of the list, and every step consumes at least one character. -/
def subNlRunGo (k : Nat) : Nat → List Char → List Char
  | 0, l => l
  | _ + 1, [] => []
  | fuel + 1, c :: cs =>
    if c = '\n' then
      let run := cs.takeWhile pyIsSpace
      if k ≤ run.count '\n' then
        '\n' :: '\n' :: subNlRunGo k fuel (cs.drop ((lastIdxOf '\n' run).getD 0 + 1))
      else c :: subNlRunGo k fuel cs
    else c :: subNlRunGo k fuel cs

/-- re.sub(r'\n\s*\n\s*\n+', '\n\n', text) (in _clean_text). -/
def subBlank (l : List Char) : List Char := subNlRunGo 2 l.length l

/-- re.sub(r'\n\s*\n', '\n\n', text) (in _extract_text_from_html). -/
def subNlPairs (l : List Char) : List Char := subNlRunGo 1 l.length l

def dropEndWhile (p : Char → Bool) (l : List Char) : List Char :=
  (l.reverse.dropWhile p).reverse

/-- Python str.strip(): remove leading and trailing whitespace. -/
def pyStripList (l : List Char) : List Char :=
  dropEndWhile pyIsSpace (l.dropWhile pyIsSpace)

def pyStrip (s : String) : String := ⟨pyStripList s.data⟩

/-- WebContentExtractor._clean_text: whitespace-run collapsing, control
character removal, blank-line collapsing, strip; empty input returns "". -/
def cleanText (s : String) : String :=
  if s = "" then ""
  else ⟨pyStripList (subBlank (stripCtl (collapseWs s.data)))⟩

example : cleanText "a\n\n\n\nb" = "a b" := by decide

example : cleanText "a \x00 b" = "a  b" := by decide

example : cleanText (cleanText "a \x00 b") = "a b" := by decide

/-! ## Python string helpers

Python str operations used by the module, on unicode code-point sequences.
-/

/-- Python slicing s[:n]. -/
def strTake (s : String) (n : Nat) : String := ⟨s.data.take n⟩

/-- Python substring test: needle in hay. -/
def strContains (hay needle : String) : Bool := decide (needle.data <:+: hay.data)

/-- Python str.startswith. -/
def strStartsWith (s pre : String) : Bool := pre.data.isPrefixOf s.data

/-- Python str.endswith. -/
def strEndsWith (s suf : String) : Bool := decide (suf.data <:+ s.data)

/-- Python str.lower (ASCII-faithful). -/
def toLowerStr (s : String) : String := ⟨s.data.map Char.toLower⟩

def pySplitGo : List Char → List Char → List String
  | [], cur => if cur.isEmpty then [] else [⟨cur.reverse⟩]
  | c :: cs, cur =>
    if pyIsSpace c then
      if cur.isEmpty then pySplitGo cs []
      else ⟨cur.reverse⟩ :: pySplitGo cs []
    else pySplitGo cs (c :: cur)

/-- Python str.split() with no argument: split on whitespace runs, no empties. -/
def pySplit (s : String) : List String := pySplitGo s.data []

def splitOnNlGo : List Char → List Char → List String
  | [], cur => [⟨cur.reverse⟩]
  | c :: cs, cur =>
    if c = '\n' then ⟨cur.reverse⟩ :: splitOnNlGo cs []
    else splitOnNlGo cs (c :: cur)

/-- Python s.split('\n'). -/
def splitOnNl (s : String) : List String := splitOnNlGo s.data []

/-- Python sep.join(parts). -/
def joinSep (sep : String) : List String → String
  | [] => ""
  | [x] => x
  | x :: xs => x ++ sep ++ joinSep sep xs

def pyTitleGo : Bool → List Char → List Char
  | _, [] => []
  | prevAlpha, c :: cs =>
    if c.isAlpha then
      (if prevAlpha then c.toLower else c.toUpper) :: pyTitleGo true cs
    else c :: pyTitleGo false cs

/-- Python str.title (ASCII-faithful). -/
def pyTitle (s : String) : String := ⟨pyTitleGo false s.data⟩

def utf8Bytes (c : Char) : List Nat :=
  let n := c.toNat
  if n < 0x80 then [n]
  else if n < 0x800 then [0xC0 + n / 0x40, 0x80 + n % 0x40]
  else if n < 0x10000 then
    [0xE0 + n / 0x1000, 0x80 + n / 0x40 % 0x40, 0x80 + n % 0x40]
  else
    [0xF0 + n / 0x40000, 0x80 + n / 0x1000 % 0x40, 0x80 + n / 0x40 % 0x40,
     0x80 + n % 0x40]

def hexDigit (n : Nat) : Char := if n < 10 then Char.ofNat (48 + n) else Char.ofNat (55 + n)

def pctByte (b : Nat) : List Char := ['%', hexDigit (b / 16), hexDigit (b % 16)]

def quoteChar (c : Char) : List Char :=
  if c.isAlphanum || c = '_' || c = '.' || c = '-' || c = '~' || c = '/' then [c]
  else (utf8Bytes c).foldr (fun b acc => pctByte b ++ acc) []

/-- urllib.parse.quote with the default safe characters. -/
def pyQuote (s : String) : String := ⟨s.data.foldr (fun c acc => quoteChar c ++ acc) []⟩

example : pyQuote "weather auckland" = "weather%20auckland" := by decide

/-! ## Data model (section 3 of the spec)

WebSearchResult and the dict returned by WebContentExtractor.extract_content
(title / content / metadata / source); Python dicts of strings become
association lists in insertion order.
-/

structure WebSearchResult where
  title : String
  url : String
  snippet : String
deriving DecidableEq

structure ExtractedContent where
  title : String
  content : String
  metadata : List (String × String)
  source : String
deriving DecidableEq

/-- Parsed JSON values, the output of the stdlib json.loads. -/
inductive Json where
  | str : String → Json
  | num : Int → Json
  | bool : Bool → Json
  | null : Json
  | arr : List Json → Json
  | obj : List (String × Json) → Json

/-- An HTTP response as the requests library delivers it, together with the
data that BeautifulSoup would derive from its body when the HTML strategy of
extract_content runs (the DOM of an external parser is environment data;
everything the repository computes from it is embedded below). -/
structure Response where
  status : Nat
  contentType : String
  body : String
  finalUrl : String
  bs4Title : String
  bs4Assembled : String
  bs4Meta : List (String × String)

/-- The environment: external collaborators of the module.  web is the network
(request key to response, Except.error = a raised requests exception);
parseJson is json.loads (none = JSONDecodeError); findAll1/findAll2 are
re.findall with one/two capture groups for the hand-written search-result
patterns; htmlUnescape is html.unescape; reprJson is Python str() on a parsed
JSON object; bs4Available is the BS4_AVAILABLE import flag; interrupt models a
failure raised outside every inner handler (e.g. inside the output formatter),
reaching the catch-all of the entry points. -/
structure Env where
  web : String → Except String Response
  parseJson : String → Option Json
  findAll1 : String → String → List String
  findAll2 : String → String → List (String × String)
  htmlUnescape : String → String
  reprJson : Json → String
  bs4Available : Bool
  interrupt : Option String

/-! ## Regex scanners

Executable models of the concrete regular expressions the module applies:
tag removal <[^>]+> / <[^>]*>, block removal <script[^>]*>.*?</script> and
<style...>, comment removal <!--.*?-->, and the title search
<title[^>]*>(.*?)</title>.  All are fuel-based scans (fuel = list length;
every step consumes at least one character), faithful to leftmost matching
with lazy .*? bodies and IGNORECASE where the source sets it.
-/

def startsWithCI (pat l : List Char) : Bool :=
  (pat.map Char.toLower).isPrefixOf ((l.take pat.length).map Char.toLower)

/-- Drop everything up to and including the first (case-insensitive)
occurrence of pat; none if absent. -/
def dropThroughCI (pat : List Char) : Nat → List Char → Option (List Char)
  | 0, _ => none
  | _ + 1, [] => none
  | fuel + 1, c :: cs =>
    if startsWithCI pat (c :: cs) then some ((c :: cs).drop pat.length)
    else dropThroughCI pat fuel cs

/-- The characters before the first (case-insensitive) occurrence of pat;
none if absent. -/
def takeUntilCI (pat : List Char) : Nat → List Char → Option (List Char)
  | 0, _ => none
  | _ + 1, [] => none
  | fuel + 1, c :: cs =>
    if startsWithCI pat (c :: cs) then some []
    else
      match takeUntilCI pat fuel cs with
      | some inner => some (c :: inner)
      | none => none

/-- re.sub of <[^>]+> (minOne = true) or <[^>]*> (minOne = false) by repl. -/
def stripTagsGo (repl : List Char) (minOne : Bool) : Nat → List Char → List Char
  | 0, l => l
  | _ + 1, [] => []
  | fuel + 1, c :: cs =>
    if c = '<' then
      let inner := cs.takeWhile (fun x => x ≠ '>')
      let rest := cs.drop inner.length
      if (!minOne || !inner.isEmpty) && rest.headD ' ' == '>' then
        repl ++ stripTagsGo repl minOne fuel (rest.drop 1)
      else c :: stripTagsGo repl minOne fuel cs
    else c :: stripTagsGo repl minOne fuel cs

def stripTagsStr (repl : String) (minOne : Bool) (s : String) : String :=
  ⟨stripTagsGo repl.data minOne s.data.length s.data⟩

/-- re.sub of opn[^>]*>.*?cls by "" (script/style blocks), IGNORECASE DOTALL. -/
def removeBlocksGo (opn cls : List Char) : Nat → List Char → List Char
  | 0, l => l
  | _ + 1, [] => []
  | fuel + 1, c :: cs =>
    if startsWithCI opn (c :: cs) then
      let after := (c :: cs).drop opn.length
      let attrs := after.takeWhile (fun x => x ≠ '>')
      match after.drop attrs.length with
      | '>' :: rest2 =>
        match dropThroughCI cls rest2.length rest2 with
        | some rest3 => removeBlocksGo opn cls fuel rest3
        | none => c :: removeBlocksGo opn cls fuel cs
      | _ => c :: removeBlocksGo opn cls fuel cs
    else c :: removeBlocksGo opn cls fuel cs

def removeBlocksStr (opn cls s : String) : String :=
  ⟨removeBlocksGo opn.data cls.data s.data.length s.data⟩

/-- re.sub of opn.*?cls by "" (HTML comments). -/
def removeDelimGo (opn cls : List Char) : Nat → List Char → List Char
  | 0, l => l
  | _ + 1, [] => []
  | fuel + 1, c :: cs =>
    if startsWithCI opn (c :: cs) then
      let after := (c :: cs).drop opn.length
      match dropThroughCI cls after.length after with
      | some rest => removeDelimGo opn cls fuel rest
      | none => c :: removeDelimGo opn cls fuel cs
    else c :: removeDelimGo opn cls fuel cs

def removeDelimStr (opn cls s : String) : String :=
  ⟨removeDelimGo opn.data cls.data s.data.length s.data⟩

/-- re.search of opn[^>]*>(.*?)cls: the first match's lazy inner group. -/
def findTagBlockCI (opn cls : List Char) : Nat → List Char → Option (List Char)
  | 0, _ => none
  | _ + 1, [] => none
  | fuel + 1, c :: cs =>
    if startsWithCI opn (c :: cs) then
      let after := (c :: cs).drop opn.length
      let attrs := after.takeWhile (fun x => x ≠ '>')
      match after.drop attrs.length with
      | '>' :: rest2 =>
        match takeUntilCI cls rest2.length rest2 with
        | some inner => some inner
        | none => findTagBlockCI opn cls fuel cs
      | _ => findTagBlockCI opn cls fuel cs
    else findTagBlockCI opn cls fuel cs

example : stripTagsStr " " true "<p>hi</p>x" = " hi x" := by decide

example : removeBlocksStr "<script" "</script>" "a<script x=1>zap</script>b" = "ab" := by
  decide

/-! ## WebContentExtractor (web_search.py lines 48-324) -/

/-- The recursive JSON walker extract_from_dict of _extract_json_content at
one depth level: string values longer than 20 characters become "key: value"
parts; dict and list values recurse via next (the walker at the next depth);
list items recurse via next; other values are ignored.  The walker stops at
depth > 3, so the four reachable depth levels are laid out explicitly. -/
def jsonPartsStep (next : Json → List String) : Json → List String
  | Json.obj kvs =>
    kvs.foldr (fun kv acc =>
      (match kv.2 with
       | Json.str s => if 20 < s.length then [kv.1 ++ ": " ++ s] else []
       | Json.obj _ => next kv.2
       | Json.arr _ => next kv.2
       | _ => []) ++ acc) []
  | Json.arr xs => xs.foldr (fun x acc => next x ++ acc) []
  | _ => []

def jsonParts4 : Json → List String := fun _ => []

def jsonParts3 : Json → List String := jsonPartsStep jsonParts4

def jsonParts2 : Json → List String := jsonPartsStep jsonParts3

def jsonParts1 : Json → List String := jsonPartsStep jsonParts2

def jsonParts0 : Json → List String := jsonPartsStep jsonParts1

/-- _extract_json_content. -/
def extractJsonContent (env : Env) (text url : String) : ExtractedContent :=
  match env.parseJson text with
  | some data =>
    let parts := jsonParts0 data
    { title := "JSON Data"
      content := if parts.isEmpty then strTake (env.reprJson data) 1000
                 else joinSep "\n\n" parts
      metadata := [("source", url), ("content_type", "json")]
      source := url }
  | none =>
    { title := "Invalid JSON"
      content := strTake text 1000
      metadata := [("source", url), ("content_type", "json"), ("error", "invalid_json")]
      source := url }

/-- _extract_xml_content. -/
def extractXmlContent (text url : String) : ExtractedContent :=
  let x1 := stripTagsStr " " true text
  let x2 := pyStrip ⟨collapseWs x1.data⟩
  { title := "XML Document"
    content := strTake x2 2000
    metadata := [("source", url), ("content_type", "xml")]
    source := url }

/-- _extract_plain_text. -/
def extractPlainText (text url : String) : ExtractedContent :=
  { title := "Text Document"
    content := cleanText (strTake text 2000)
    metadata := [("source", url), ("content_type", "text")]
    source := url }

/-- _extract_html_content_regex: the BeautifulSoup-free fallback. -/
def extractHtmlRegex (html url : String) : ExtractedContent :=
  let title0 :=
    match findTagBlockCI "<title".data "</title>".data html.data.length html.data with
    | some inner => stripTagsStr "" true (pyStrip ⟨inner⟩)
    | none => "Web Page"
  let h1 := removeBlocksStr "<script" "</script>" html
  let h2 := removeBlocksStr "<style" "</style>" h1
  let t := stripTagsStr " " true h2
  { title := title0
    content := cleanText ⟨collapseWs t.data⟩
    metadata := [("source", url), ("extraction_method", "regex")]
    source := url }

/-- _extract_html_content_bs4: the title, the assembled text of the selected
content region, and the meta tags are DOM data delivered by BeautifulSoup
(Response fields); the repository's own step on the assembled text is
_clean_text, and _extract_metadata_bs4 seeds its dict with the source url. -/
def extractHtmlBs4 (resp : Response) (url : String) : ExtractedContent :=
  { title := resp.bs4Title
    content := cleanText resp.bs4Assembled
    metadata := ("source", url) :: resp.bs4Meta
    source := url }

/-- The record built by the catch-all handler of extract_content
(web_search.py lines 96-103). -/
def errorExtract (url e : String) : ExtractedContent :=
  { title := "Error: " ++ e
    content := "Failed to extract content from " ++ url ++ ": " ++ e
    metadata := [("source", url), ("error", e)]
    source := url }

/-- The try-block of extract_content: fetch, raise_for_status, then dispatch
on the lowercased content type (json / xml / plain text / html). -/
def extractBody (env : Env) (url : String) : Except String ExtractedContent :=
  match env.web url with
  | Except.error e => Except.error e
  | Except.ok resp =>
    if 400 ≤ resp.status then Except.error ("HTTP " ++ toString resp.status)
    else
      if strContains (toLowerStr resp.contentType) "json" then
        Except.ok (extractJsonContent env resp.body resp.finalUrl)
      else if strContains (toLowerStr resp.contentType) "xml" then
        Except.ok (extractXmlContent resp.body resp.finalUrl)
      else if strContains (toLowerStr resp.contentType) "text/" &&
          !strContains (toLowerStr resp.contentType) "html" then
        Except.ok (extractPlainText resp.body resp.finalUrl)
      else if env.bs4Available then Except.ok (extractHtmlBs4 resp resp.finalUrl)
      else Except.ok (extractHtmlRegex resp.body resp.finalUrl)

/-- WebContentExtractor.extract_content: never raises; any failure of the
body becomes the error record. -/
def extractContent (env : Env) (url : String) : ExtractedContent :=
  match extractBody env url with
  | Except.ok ec => ec
  | Except.error e => errorExtract url e

/-! ## DuckDuckGoSearch backends (web_search.py lines 329-741) -/

/-- The per-engine regex pattern lists of _extract_result_urls. -/
def enginePatterns (engine : String) : List String :=
  if engine = "startpage" then
    ["<a[^>]*href=\"(https?://[^\"]*)\"[^>]*class=\"[^\"]*result[^\"]*\"",
     "<a[^>]*class=\"[^\"]*result[^\"]*\"[^>]*href=\"(https?://[^\"]*)\""]
  else if engine = "bing" then
    ["<h2><a href=\"(https?://[^\"]*)\"",
     "<a[^>]*href=\"(https?://[^\"]*)\"[^>]*id=\"[^\"]*title[^\"]*\""]
  else if engine = "yahoo" then
    ["<h3[^>]*><a[^>]*href=\"(https?://[^\"]*)\"",
     "<a[^>]*href=\"(https?://[^\"]*)\"[^>]*class=\"[^\"]*title[^\"]*\""]
  else
    ["<a[^>]*href=\"(https?://[^\"]*)\"[^>]*>",
     "href=\"(https?://[^\"]*)\""]

/-- The denylist of _extract_result_urls. -/
def altSkipDomains : List String :=
  ["google.com", "bing.com", "yahoo.com", "startpage.com",
   "facebook.com", "twitter.com", "youtube.com/watch",
   "javascript:", "mailto:", "#"]

def altUrlAllowed (u : String) : Bool :=
  !(altSkipDomains.any fun d => strContains u d)

/-- The per-pattern collection loop of _extract_result_urls: append allowed
matches, breaking once ten are collected (n is the running count). -/
def collectAllowed (n : Nat) : List String → List String
  | [] => []
  | m :: ms =>
    if altUrlAllowed m then
      if 10 ≤ n + 1 then [m] else m :: collectAllowed (n + 1) ms
    else collectAllowed n ms

def firstNonEmptyList {α : Type} : List (List α) → List α
  | [] => []
  | l :: ls => if l.isEmpty then firstNonEmptyList ls else l

/-- _extract_result_urls: first pattern whose filtered matches are non-empty,
top five returned. -/
def extractResultUrls (env : Env) (htmlContent engine : String) : List String :=
  (firstNonEmptyList
    ((enginePatterns engine).map fun p => collectAllowed 0 (env.findAll1 p htmlContent))).take 5

def searchEngines (q : String) : List (String × String) :=
  [("startpage", "https://www.startpage.com/sp/search?query=" ++ pyQuote q),
   ("bing", "https://www.bing.com/search?q=" ++ pyQuote q),
   ("yahoo", "https://search.yahoo.com/search?p=" ++ pyQuote q)]

/-- The destination-url loop of _search_alternative: break when max results
are collected; keep a url only when its extracted content has more than 50
stripped characters; snippet is the first 600 characters with an ellipsis. -/
def altCollectFromUrls (env : Env) (maxResults : Nat) :
    List String → List WebSearchResult → List WebSearchResult
  | [], acc => acc
  | u :: us, acc =>
    if maxResults ≤ acc.length then acc
    else
      let data := extractContent env u
      let pc := data.content
      if !pc.isEmpty && 50 < (pyStrip pc).length then
        altCollectFromUrls env maxResults us
          (acc ++ [⟨data.title, u,
                    if 600 < pc.length then strTake pc 600 ++ "..." else pc⟩])
      else altCollectFromUrls env maxResults us acc

/-- The engine loop of _search_alternative: a raised request is swallowed, a
200 response contributes destination urls, and the loop breaks once max
results are collected. -/
def altEngineLoop (env : Env) (maxResults : Nat) :
    List (String × String) → List WebSearchResult → List WebSearchResult
  | [], acc => acc
  | (engine, surl) :: rest, acc =>
    match env.web surl with
    | Except.error _ => altEngineLoop env maxResults rest acc
    | Except.ok resp =>
      if resp.status = 200 then
        let urls := extractResultUrls env resp.body engine
        let acc2 := altCollectFromUrls env maxResults (urls.take maxResults) acc
        if maxResults ≤ acc2.length then acc2
        else altEngineLoop env maxResults rest acc2
      else altEngineLoop env maxResults rest acc

/-- _search_alternative: multi-engine scrape; whenever fewer than max results
were collected, a synthesized fallback result is appended. -/
def searchAlternative (env : Env) (q : String) (maxResults : Nat) : List WebSearchResult :=
  let results := altEngineLoop env maxResults (searchEngines q) []
  if results.length < maxResults then
    results ++
      [⟨"Search results for \x27" ++ q ++ "\x27",
        "https://www.google.com/search?q=" ++ pyQuote q,
        "Search query: " ++ q ++ ". Multiple search engines were queried for this information."⟩]
  else results

/-- The three link patterns of _search_html, tried in order. -/
def ddgPatterns : List String :=
  ["<a[^>]*href=\"([^\"]*)\"[^>]*class=\"[^\"]*result[^\"]*\"[^>]*>([^<]+)</a>",
   "<a[^>]*href=\"(https?://[^\"]*)\"[^>]*>([^<]+)</a>",
   "href=\"(https?://[^\"]*)\"[^>]*>([^<]+?)</a>"]

def ddgRequestUrl (q : String) : String :=
  "https://duckduckgo.com/html/?q=" ++ pyQuote q ++ "&b=&kl=us-en&df=&s=0"

def weatherQueryWords : List String := ["weather", "temperature", "forecast"]

def weatherStopWords : List String :=
  ["weather", "temperature", "forecast", "current", "today"]

/-- The city token scan of the weather fallback in _search_html. -/
def weatherCity (q : String) : String :=
  ((pySplit (toLowerStr q)).find? fun w => !(weatherStopWords.contains w)).getD "auckland"

/-- The fixed weather-template candidates of _search_html (the category
shortcut of the spec). -/
def weatherFallback (q : String) : List WebSearchResult :=
  let city := weatherCity q
  [⟨"Weather for " ++ pyTitle city,
    "https://www.timeanddate.com/weather/new-zealand/" ++ city, ""⟩,
   ⟨pyTitle city ++ " Weather Forecast",
    "https://weather.yahoo.com/new-zealand/" ++ city ++ "/" ++ city ++ "-2348327", ""⟩]

/-- _clean_html_text: unescape entities, drop tags, normalize whitespace. -/
def cleanHtmlText (env : Env) (t : String) : String :=
  let t1 := env.htmlUnescape t
  let t2 := stripTagsStr "" false t1
  pyStrip (joinSep " " (pySplit t2))

def ddgSkipDomains : List String :=
  ["duckduckgo.com", "ddg.gg", "duck.co", "duckduckgo.org"]

/-- The link filtering loop of _search_html: skip denylisted or non-http or
short-titled links, clean the title, stop at max results. -/
def filterDdgGo (env : Env) (maxResults : Nat) :
    List (String × String) → List (String × String) → List (String × String)
  | [], acc => acc
  | (u, t) :: rest, acc =>
    if ddgSkipDomains.any (fun d => strContains u d) then filterDdgGo env maxResults rest acc
    else if !strStartsWith u "http" then filterDdgGo env maxResults rest acc
    else if (pyStrip t).length < 3 then filterDdgGo env maxResults rest acc
    else
      let t2 := cleanHtmlText env t
      if !t2.isEmpty && !u.isEmpty then
        let acc2 := acc ++ [(u, t2)]
        if maxResults ≤ acc2.length then acc2 else filterDdgGo env maxResults rest acc2
      else filterDdgGo env maxResults rest acc

/-- The try-block of _search_html. -/
def htmlBody (env : Env) (q : String) (maxResults : Nat) :
    Except String (List WebSearchResult) :=
  match env.web (ddgRequestUrl q) with
  | Except.error e => Except.error e
  | Except.ok resp =>
    if 400 ≤ resp.status then Except.error ("HTTP " ++ toString resp.status)
    else
      let links := firstNonEmptyList (ddgPatterns.map fun p => env.findAll2 p resp.body)
      if links.isEmpty &&
          weatherQueryWords.any (fun w => strContains (toLowerStr q) w) then
        Except.ok (weatherFallback q)
      else
        Except.ok
          ((filterDdgGo env maxResults (links.take (maxResults * 2)) []).map
            fun ut => ⟨ut.2, ut.1, ""⟩)

/-- _search_html: direct DuckDuckGo HTML scrape, empty on any failure. -/
def searchHtml (env : Env) (q : String) (maxResults : Nat) : List WebSearchResult :=
  match htmlBody env q maxResults with
  | Except.ok rs => rs
  | Except.error _ => []

/-- Python truthiness of a parsed JSON value. -/
def jsonTruthy : Json → Bool
  | Json.str s => !s.isEmpty
  | Json.num n => n != 0
  | Json.bool b => b
  | Json.null => false
  | Json.arr xs => !xs.isEmpty
  | Json.obj kvs => !kvs.isEmpty

/-- The string a JSON value contributes to a result field (str() for
non-string values, via the environment). -/
def jsonToStr (env : Env) : Json → String
  | Json.str s => s
  | j => env.reprJson j

/-- Python value.get(key, default): raises AttributeError on non-dicts. -/
def pyDictGet (v : Json) (k : String) (dflt : Json) : Except String Json :=
  match v with
  | Json.obj kvs => Except.ok ((kvs.lookup k).getD dflt)
  | _ => Except.error "AttributeError"

/-- The RelatedTopics loop of _search_instant_answer; a non-dict FirstURL
value makes topic.get('FirstURL', \x7b\x7d).get(...) raise, aborting the
whole backend. -/
def instantTopics (env : Env) : List Json → Except String (List WebSearchResult)
  | [] => Except.ok []
  | t :: ts =>
    match t with
    | Json.obj kvs =>
      if (kvs.lookup "Text").isSome then
        let fu := (kvs.lookup "FirstURL").getD (Json.obj [])
        match pyDictGet fu "Text" (Json.str "Related Topic") with
        | Except.error e => Except.error e
        | Except.ok ttl =>
          match pyDictGet fu "URL" (Json.str "") with
          | Except.error e => Except.error e
          | Except.ok u =>
            match instantTopics env ts with
            | Except.error e => Except.error e
            | Except.ok rest =>
              Except.ok
                (⟨jsonToStr env ttl, jsonToStr env u,
                  jsonToStr env ((kvs.lookup "Text").getD (Json.str ""))⟩ :: rest)
      else instantTopics env ts
    | _ => instantTopics env ts

def instantRequestUrl (q : String) : String :=
  "https://api.duckduckgo.com/?q=" ++ pyQuote q ++
    "&format=json&no_html=1&skip_disambig=1"

/-- The try-block of _search_instant_answer. -/
def instantBody (env : Env) (q : String) (maxResults : Nat) :
    Except String (List WebSearchResult) :=
  match env.web (instantRequestUrl q) with
  | Except.error e => Except.error e
  | Except.ok resp =>
    if 400 ≤ resp.status then Except.error ("HTTP " ++ toString resp.status)
    else
      match env.parseJson resp.body with
      | none => Except.error "JSONDecodeError"
      | some (Json.obj kvs) =>
        let headResults : List WebSearchResult :=
          if jsonTruthy ((kvs.lookup "AbstractText").getD Json.null) then
            [⟨jsonToStr env ((kvs.lookup "Heading").getD (Json.str q)),
              jsonToStr env ((kvs.lookup "AbstractURL").getD (Json.str "")),
              jsonToStr env ((kvs.lookup "AbstractText").getD (Json.str ""))⟩]
          else []
        match (kvs.lookup "RelatedTopics").getD (Json.arr []) with
        | Json.arr ts =>
          match instantTopics env (ts.take (maxResults - headResults.length)) with
          | Except.error e => Except.error e
          | Except.ok more => Except.ok (headResults ++ more)
        | Json.str _ => Except.ok headResults
        | _ => Except.error "TypeError"
      | some _ => Except.error "AttributeError"

/-- _search_instant_answer: instant-answer API backend, empty on any failure. -/
def searchInstantAnswer (env : Env) (q : String) (maxResults : Nat) : List WebSearchResult :=
  match instantBody env q maxResults with
  | Except.ok rs => rs
  | Except.error _ => []

/-! ## DuckDuckGoSearch.search: the orchestrator (lines 344-408) -/

/-- The snippet rule the orchestrator applies to extracted content
(web_search.py line 383): first 800 characters plus an ellipsis marker. -/
def searchSnippet (c : String) : String :=
  if 800 < c.length then strTake c 800 ++ "..." else c

/-- The backend fallback chain of search (lines 359-368): multi-engine
scrape, then the DuckDuckGo HTML scrape, then the instant-answer API, each
tried only when every earlier backend returned no candidates. -/
def searchCandidates (env : Env) (q : String) (m : Nat) : List WebSearchResult :=
  let r0 := searchAlternative env q m
  let r1 := if r0.isEmpty then searchHtml env q m else r0
  if r1.isEmpty then searchInstantAnswer env q m else r1

/-- The content loop of search (lines 370-394): partition candidates into
those whose extracted content has more than 50 stripped characters (snippet
replaced via searchSnippet) and the rest, keeping candidate order. -/
def searchPartition (env : Env) :
    List WebSearchResult → List WebSearchResult × List WebSearchResult
  | [] => ([], [])
  | r :: rest =>
    let p := searchPartition env rest
    if !r.url.isEmpty && strStartsWith r.url "http" then
      let ct := (extractContent env r.url).content
      if !ct.isEmpty && 50 < (pyStrip ct).length then
        ({ r with snippet := searchSnippet ct } :: p.1, p.2)
      else (p.1, r :: p.2)
    else (p.1, r :: p.2)

/-- The try-block of search: clamp max results to [1, 10], run the fallback
chain, partition by content, prioritize content-bearing results, truncate. -/
def searchPipeline (env : Env) (q : String) (maxResults : Int) : List WebSearchResult :=
  let m := (min (max 1 maxResults) 10).toNat
  let p := searchPartition env (searchCandidates env q m)
  let prioritized := if p.1.length < m then p.1 ++ p.2.take (m - p.1.length) else p.1
  prioritized.take m

/-- search as an Except computation: an interrupt (a failure outside every
inner handler, e.g. in the output formatter or the request machinery) is the
only thing that can reach the catch-all, since every backend and the
extractor swallow their own errors. -/
def searchBody (env : Env) (q : String) (maxResults : Int) :
    Except String (List WebSearchResult) :=
  match env.interrupt with
  | some e => Except.error e
  | none => Except.ok (searchPipeline env q maxResults)

/-- DuckDuckGoSearch.search: the catch-all returns an empty list. -/
def search (env : Env) (q : String) (maxResults : Int) : List WebSearchResult :=
  match searchBody env q maxResults with
  | Except.ok rs => rs
  | Except.error _ => []

/-! ## WebsiteContentFetcher (lines 933-1063) -/

def junkPhrases : List String :=
  ["click here", "read more", "learn more", "sign up", "log in", "login",
   "subscribe", "newsletter", "follow us", "share this", "tweet",
   "facebook", "twitter", "instagram", "linkedin",
   "advertisement", "sponsored", "cookie", "privacy policy",
   "terms of service", "contact us", "about us", "home page",
   "menu", "navigation", "search", "loading"]

/-- _is_likely_junk_line. -/
def isLikelyJunkLine (line : String) : Bool :=
  let ll := pyStrip (toLowerStr line)
  if ll.length < 3 then true
  else if ll.data.dedup.length < 3 then true
  else junkPhrases.any fun p => strContains ll p && ll.length < 50

/-- _extract_text_from_html: remove script/style blocks and comments, strip
tags, unescape, normalize blank lines and space runs, strip, then drop junk
lines. -/
def extractTextFromHtml (env : Env) (html : String) : String :=
  let h1 := removeBlocksStr "<script" "</script>" html
  let h2 := removeBlocksStr "<style" "</style>" h1
  let h3 := removeDelimStr "<!--" "-->" h2
  let t := stripTagsStr "" true h3
  let t2 := env.htmlUnescape t
  let t3 : String := ⟨subNlPairs t2.data⟩
  let t4 : String := ⟨collapseRunsGo (fun c => c = ' ' || c = '\t') false t3.data⟩
  let t5 := pyStrip t4
  joinSep "\n"
    (((splitOnNl t5).map pyStrip).filter fun l => !l.isEmpty && !isLikelyJunkLine l)

/-- The url normalization at the top of fetch_website_content. -/
def normalizeFetchUrl (url : String) : String :=
  if strStartsWith url "http://" || strStartsWith url "https://" then url
  else "https://" ++ url

/-- The try-block of fetch_website_content: fetch, raise_for_status, reject
non-HTML content types, extract, reject empty extractions, truncate. -/
def fetchBody (env : Env) (url0 : String) (maxLength : Nat) :
    Except String (Option String) :=
  match env.interrupt with
  | some e => Except.error e
  | none =>
    match env.web (normalizeFetchUrl url0) with
    | Except.error e => Except.error e
    | Except.ok resp =>
      if 400 ≤ resp.status then Except.error ("HTTP " ++ toString resp.status)
      else if !strContains (toLowerStr resp.contentType) "text/html" then Except.ok none
      else if pyStrip (extractTextFromHtml env resp.body) = "" then Except.ok none
      else
        Except.ok (some
          (if maxLength < (extractTextFromHtml env resp.body).length then
            strTake (extractTextFromHtml env resp.body) maxLength ++
              "\n\n[Content truncated due to length limit]"
          else extractTextFromHtml env resp.body))

/-- WebsiteContentFetcher.fetch_website_content: any raised failure becomes
None at the boundary. -/
def fetchWebsiteContent (env : Env) (url : String) (maxLength : Nat) : Option String :=
  match fetchBody env url maxLength with
  | Except.ok r => r
  | Except.error _ => none

/-! ## _extract_page_text truncation (lines 886-894)

The only sentence-boundary-aware truncation in the module lives in the helper
_extract_page_text, which no orchestrator path calls. -/

/-- Index of the last '.' in a list of characters (Python str.rfind). -/
def lastDotIdx : List Char → Option Nat
  | [] => none
  | c :: cs =>
    match lastDotIdx cs with
    | some i => some (i + 1)
    | none => if c = '.' then some 0 else none

/-- Python t.rfind('.'): the index of the last period, -1 when absent. -/
def rfindDot (s : String) : Int :=
  match lastDotIdx s.data with
  | some i => (i : Int)
  | none => -1

/-- The window/sentence-boundary truncation of _extract_page_text: content
over 1000 characters is cut at the last period when that period sits after
position 500, otherwise hard-truncated with an ellipsis. -/
def pageTextTruncate (t : String) : String :=
  if 1000 < t.length then
    if 500 < rfindDot (strTake t 1000) then
      strTake (strTake t 1000) ((rfindDot (strTake t 1000)).toNat + 1)
    else strTake t 1000 ++ "..."
  else t

/-! ## Prompt enhancement (lines 902-930 and 1066-1087) -/

/-- The enumerated result entries of create_search_prompt_enhancement. -/
def searchEntries : Nat → List WebSearchResult → String
  | _, [] => ""
  | i, r :: rest =>
    "\n" ++ toString i ++ ". " ++ r.title ++ "\n" ++
      (if !r.snippet.isEmpty then "   " ++ r.snippet ++ "\n" else "") ++
      (if !r.url.isEmpty then "   Source: " ++ r.url ++ "\n" else "") ++
      searchEntries (i + 1) rest

def searchInstruction : String :=
  "Please use the above web search results to provide a more comprehensive and up-to-date response to the following query:\n\n"

/-- create_search_prompt_enhancement. -/
def createSearchPromptEnhancement (q : String) (rs : List WebSearchResult) : String :=
  if rs.isEmpty then q
  else
    "\n\n--- Web Search Results ---\n" ++ searchEntries 1 rs ++
      "\n--- End Search Results ---\n\n" ++ searchInstruction ++ q

def websiteInstruction : String :=
  "Please use the above website content to provide a comprehensive response to the following query:\n\n"

/-- create_website_prompt_enhancement. -/
def createWebsitePromptEnhancement (q content url : String) : String :=
  if content.isEmpty then q
  else
    "\n\n--- Website Content from " ++ url ++ " ---\n" ++ content ++
      "\n--- End Website Content ---\n\n" ++ websiteInstruction ++ q

/-! ## Claim-side comparison definition for the refinement claim C10 -/

/-- Following the claim: an orchestrator that consults the multi-engine
backend alone, with the same clamping, content partition, prioritization and
truncation as search, and the same catch-all. -/
def searchAltOnly (env : Env) (q : String) (maxResults : Int) : List WebSearchResult :=
  match env.interrupt with
  | some _ => []
  | none =>
    let m := (min (max 1 maxResults) 10).toNat
    let p := searchPartition env (searchAlternative env q m)
    let prioritized := if p.1.length < m then p.1 ++ p.2.take (m - p.1.length) else p.1
    prioritized.take m

/-! ## Concrete environments used by witnesses and counterexamples -/

/-- An environment in which every network request raises. -/
def envDown : Env :=
  { web := fun _ => Except.error "connection error"
    parseJson := fun _ => none
    findAll1 := fun _ _ => []
    findAll2 := fun _ _ => []
    htmlUnescape := id
    reprJson := fun _ => ""
    bs4Available := true
    interrupt := none }

example : searchAlternative envDown "test" 0 = [] := by decide

example : (search envDown "weather auckland" 5).map WebSearchResult.url =
    ["https://www.google.com/search?q=weather%20auckland"] := by decide

/-- An environment in which an exception is raised outside all inner
handlers, reaching the catch-all of an entry point. -/
def envInterrupt : Env := { envDown with interrupt := some "formatter failure" }

def respHtml404 : Response :=
  { status := 404, contentType := "text/html", body := "", finalUrl := "http://h",
    bs4Title := "", bs4Assembled := "", bs4Meta := [] }

/-- Every request yields an HTTP 404 HTML response. -/
def envHtml404 : Env := { envDown with web := fun _ => Except.ok respHtml404 }

def respEmptyHtml : Response :=
  { status := 200, contentType := "text/html", body := "<p></p>",
    finalUrl := "http://h", bs4Title := "", bs4Assembled := "", bs4Meta := [] }

/-- Every request yields an HTML page with no readable text. -/
def envEmptyHtml : Env := { envDown with web := fun _ => Except.ok respEmptyHtml }

def respJson : Response :=
  { status := 200, contentType := "application/json", body := "jsonbody",
    finalUrl := "https://api.example.com/data", bs4Title := "", bs4Assembled := "",
    bs4Meta := [] }

/-- One endpoint answers with a JSON document holding one long description
string; its parse is supplied by the environment's json.loads. -/
def envJson : Env :=
  { envDown with
    web := fun u =>
      if u = "https://api.example.com/data" then Except.ok respJson
      else Except.error "down"
    parseJson := fun _ =>
      some (Json.obj
        [("description", Json.str "a json description value longer than twenty characters")]) }

/-! ## Claim theorems -/

/-- C2: for every max_results input, including 0, negative values, and values
greater than 10, search returns a list whose length is at most 10 and at most
max_results clamped to [1, 10]. -/
theorem claim_c2_result_count_bound (env : Env) (q : String) (m : Int) :
    (search env q m).length ≤ (min (max 1 m) 10).toNat ∧
    (search env q m).length ≤ 10 := by
  have hclamp : (min (max 1 m) 10).toNat ≤ 10 := by
    rw [Int.toNat_le]
    exact_mod_cast min_le_right (max 1 m) 10
  have hlen : (search env q m).length ≤ (min (max 1 m) 10).toNat := by
    cases h : env.interrupt with
    | some e => simp [search, searchBody, h]
    | none =>
      simp only [search, searchBody, h, searchPipeline]
      exact List.length_take_le _ _
  exact ⟨hlen, le_trans hlen hclamp⟩

/-- C4: extract_content never raises; on any failure of its body (fetch error
or HTTP error status) it returns the error record: content states the
failure, metadata carries an 'error' entry with the cause, source is the
requested url. -/
theorem claim_c4_error_record (env : Env) (url e : String)
    (h : extractBody env url = Except.error e) :
    extractContent env url = errorExtract url e ∧
    (extractContent env url).source = url ∧
    List.lookup "error" (extractContent env url).metadata = some e ∧
    (extractContent env url).content =
      "Failed to extract content from " ++ url ++ ": " ++ e := by
  have h1 : extractContent env url = errorExtract url e := by
    unfold extractContent
    rw [h]
  refine ⟨h1, ?_, ?_, ?_⟩ <;> rw [h1] <;> rfl

theorem claim_c4_error_record_witness :
    extractContent envDown "http://x" = errorExtract "http://x" "connection error" ∧
    (extractContent envDown "http://x").source = "http://x" ∧
    List.lookup "error" (extractContent envDown "http://x").metadata =
      some "connection error" ∧
    (extractContent envDown "http://x").content =
      "Failed to extract content from http://x: connection error" := by
  have h := claim_c4_error_record envDown "http://x" "connection error" rfl
  exact ⟨h.1, h.2.1, h.2.2.1, h.2.2.2.trans (by decide)⟩

/-- C6 (amended): the json content-type routing lives in the search-side
extractor: extract_content dispatches any response whose content type
contains "json" to JSON extraction and never to HTML tag stripping; the
single-page fetch entry point fetch_website_content instead returns None for
every response whose content type lacks "text/html", so it never routes JSON
to extraction at all. -/
theorem claim_c6_amended :
    (∀ (env : Env) (url : String) (resp : Response),
        env.web url = Except.ok resp → resp.status < 400 →
        strContains (toLowerStr resp.contentType) "json" = true →
        extractContent env url = extractJsonContent env resp.body resp.finalUrl) ∧
    (∀ (env : Env) (url : String) (n : Nat) (resp : Response),
        env.interrupt = none →
        env.web (normalizeFetchUrl url) = Except.ok resp →
        resp.status < 400 →
        strContains (toLowerStr resp.contentType) "text/html" = false →
        fetchWebsiteContent env url n = none) := by
  constructor
  · intro env url resp hw hs hj
    simp only [extractContent, extractBody, hw]
    rw [if_neg (not_le.mpr hs), if_pos hj]
  · intro env url n resp hi hw hs hct
    simp only [fetchWebsiteContent, fetchBody, hi, hw]
    rw [if_neg (not_le.mpr hs), if_pos (show (!strContains (toLowerStr resp.contentType) "text/html") = true by rw [hct]; rfl)]

theorem claim_c6_amended_witness :
    extractContent envJson "https://api.example.com/data" =
      extractJsonContent envJson "jsonbody" "https://api.example.com/data" ∧
    fetchWebsiteContent envJson "https://api.example.com/data" 8000 = none :=
  ⟨claim_c6_amended.1 envJson "https://api.example.com/data" respJson rfl
      (by decide) (by decide),
   claim_c6_amended.2 envJson "https://api.example.com/data" 8000 respJson rfl rfl
      (by decide) (by decide)⟩

/-- C6 (counterexample): on a response declaring content-type
application/json the single-page fetch returns None instead of routing the
body to JSON extraction, although the extractor's JSON route on the same
response yields non-empty content. -/
theorem claim_c6_counterexample :
    envJson.web "https://api.example.com/data" = Except.ok respJson ∧
    respJson.contentType = "application/json" ∧
    fetchWebsiteContent envJson "https://api.example.com/data" 8000 = none ∧
    (extractContent envJson "https://api.example.com/data").content ≠ "" := by
  refine ⟨rfl, rfl, by decide, by decide⟩

/-- C3: errors do not cross the component boundary: an exception reaching the
catch-all of search yields the empty result list, and every failure in the
single-page fetch (raised request, HTTP error status, non-HTML content type
handled separately in C6, or empty extraction) yields None. -/
theorem claim_c3_error_boundaries :
    (∀ (env : Env) (q : String) (m : Int) (e : String),
        searchBody env q m = Except.error e → search env q m = []) ∧
    (∀ (env : Env) (url : String) (n : Nat) (e : String),
        fetchBody env url n = Except.error e → fetchWebsiteContent env url n = none) ∧
    (∀ (env : Env) (url : String) (n : Nat) (e : String),
        env.interrupt = none →
        env.web (normalizeFetchUrl url) = Except.error e →
        fetchWebsiteContent env url n = none) ∧
    (∀ (env : Env) (url : String) (n : Nat) (resp : Response),
        env.interrupt = none →
        env.web (normalizeFetchUrl url) = Except.ok resp →
        400 ≤ resp.status →
        fetchWebsiteContent env url n = none) ∧
    (∀ (env : Env) (url : String) (n : Nat) (resp : Response),
        env.interrupt = none →
        env.web (normalizeFetchUrl url) = Except.ok resp →
        resp.status < 400 →
        strContains (toLowerStr resp.contentType) "text/html" = true →
        pyStrip (extractTextFromHtml env resp.body) = "" →
        fetchWebsiteContent env url n = none) := by
  refine ⟨?_, ?_, ?_, ?_, ?_⟩
  · intro env q m e h
    unfold search
    rw [h]
  · intro env url n e h
    unfold fetchWebsiteContent
    rw [h]
  · intro env url n e hi hw
    simp only [fetchWebsiteContent, fetchBody, hi, hw]
  · intro env url n resp hi hw hs
    simp only [fetchWebsiteContent, fetchBody, hi, hw]
    rw [if_pos hs]
  · intro env url n resp hi hw hs hct hempty
    simp only [fetchWebsiteContent, fetchBody, hi, hw]
    rw [if_neg (not_le.mpr hs),
        if_neg (show ¬(!strContains (toLowerStr resp.contentType) "text/html") = true by
          rw [hct]; exact fun h => by cases h),
        if_pos hempty]

theorem claim_c3_error_boundaries_witness :
    search envInterrupt "kernel version" 5 = [] ∧
    fetchWebsiteContent envDown "example.com" 8000 = none ∧
    fetchWebsiteContent envHtml404 "http://h" 8000 = none ∧
    fetchWebsiteContent envEmptyHtml "http://h" 8000 = none :=
  ⟨claim_c3_error_boundaries.1 envInterrupt "kernel version" 5 "formatter failure" rfl,
   claim_c3_error_boundaries.2.2.1 envDown "example.com" 8000 "connection error" rfl rfl,
   claim_c3_error_boundaries.2.2.2.1 envHtml404 "http://h" 8000 respHtml404 rfl rfl
     (by decide),
   claim_c3_error_boundaries.2.2.2.2 envEmptyHtml "http://h" 8000 respEmptyHtml rfl rfl
     (by decide) (by decide) (by decide)⟩

/-! ### Helper lemmas for the backend chain -/

theorem firstNonEmptyList_eq_nil {α : Type} :
    ∀ ls : List (List α), (∀ l ∈ ls, l = []) → firstNonEmptyList ls = [] := by
  intro ls
  induction ls with
  | nil => intro _; rfl
  | cons l ls ih =>
    intro h
    unfold firstNonEmptyList
    rw [h l (List.mem_cons_self l ls)]
    simpa using ih fun x hx => h x (List.mem_cons_of_mem _ hx)

theorem alt_ne_nil (env : Env) (q : String) {m : Nat} (hm : 1 ≤ m) :
    searchAlternative env q m ≠ [] := by
  unfold searchAlternative
  by_cases h : (altEngineLoop env m (searchEngines q) []).length < m
  · rw [if_pos h]
    simp
  · rw [if_neg h]
    have hlen : 0 < (altEngineLoop env m (searchEngines q) []).length :=
      lt_of_lt_of_le hm (not_lt.mp h)
    exact List.length_pos.mp hlen

theorem candidates_of_alt_ne_nil (env : Env) (q : String) (m : Nat)
    (h : searchAlternative env q m ≠ []) :
    searchCandidates env q m = searchAlternative env q m := by
  unfold searchCandidates
  cases hl : searchAlternative env q m with
  | nil => exact absurd hl h
  | cons a t => simp [hl]

/-- C1 (amended): search runs its backends in the fixed priority order
multi-engine scrape, then direct DuckDuckGo HTML scrape, then instant-answer
API; it uses the candidate list of the first backend returning a non-empty
list, candidate lists are never merged, and the weather category shortcut is
not a separate first backend but the internal no-links fallback of the HTML
scrape. -/
theorem claim_c1_backend_chain (env : Env) (q : String) (m : Nat) :
    (searchAlternative env q m ≠ [] →
      searchCandidates env q m = searchAlternative env q m) ∧
    (searchAlternative env q m = [] → searchHtml env q m ≠ [] →
      searchCandidates env q m = searchHtml env q m) ∧
    (searchAlternative env q m = [] → searchHtml env q m = [] →
      searchCandidates env q m = searchInstantAnswer env q m) ∧
    (searchCandidates env q m = searchAlternative env q m ∨
     searchCandidates env q m = searchHtml env q m ∨
     searchCandidates env q m = searchInstantAnswer env q m) ∧
    (∀ resp : Response, env.web (ddgRequestUrl q) = Except.ok resp →
      resp.status < 400 →
      (∀ p ∈ ddgPatterns, env.findAll2 p resp.body = []) →
      weatherQueryWords.any (fun w => strContains (toLowerStr q) w) = true →
      searchHtml env q m = weatherFallback q) := by
  have hA : searchAlternative env q m ≠ [] →
      searchCandidates env q m = searchAlternative env q m :=
    candidates_of_alt_ne_nil env q m
  have hB : searchAlternative env q m = [] → searchHtml env q m ≠ [] →
      searchCandidates env q m = searchHtml env q m := by
    intro h0 h1
    unfold searchCandidates
    cases hl : searchHtml env q m with
    | nil => exact absurd hl h1
    | cons a t => simp [h0, hl]
  have hC : searchAlternative env q m = [] → searchHtml env q m = [] →
      searchCandidates env q m = searchInstantAnswer env q m := by
    intro h0 h1
    unfold searchCandidates
    simp [h0, h1]
  refine ⟨hA, hB, hC, ?_, ?_⟩
  · by_cases h0 : searchAlternative env q m = []
    · by_cases h1 : searchHtml env q m = []
      · exact Or.inr (Or.inr (hC h0 h1))
      · exact Or.inr (Or.inl (hB h0 h1))
    · exact Or.inl (hA h0)
  · intro resp hw hs hpat hwq
    simp only [searchHtml, htmlBody, hw]
    rw [if_neg (not_le.mpr hs)]
    have hlinks :
        firstNonEmptyList (ddgPatterns.map fun p => env.findAll2 p resp.body) = [] := by
      refine firstNonEmptyList_eq_nil _ fun l hl => ?_
      obtain ⟨p, hp, rfl⟩ := List.mem_map.mp hl
      exact hpat p hp
    rw [hlinks]
    simp [hwq]

theorem claim_c1_backend_chain_witness :
    searchCandidates envDown "rainfall" 2 = searchAlternative envDown "rainfall" 2 :=
  (claim_c1_backend_chain envDown "rainfall" 2).1 (by decide)

/-- C1 (counterexample): on the query "weather auckland" the category
shortcut (the fixed weather templates) is non-empty, yet search returns the
multi-engine backend's candidate (the synthesized fallback pointing at a
generic web search), sharing no url with the shortcut; so the shortcut is
not the first backend in the chain. -/
theorem claim_c1_counterexample :
    weatherFallback "weather auckland" ≠ [] ∧
    (search envDown "weather auckland" 5).map WebSearchResult.url =
      ["https://www.google.com/search?q=weather%20auckland"] ∧
    ((weatherFallback "weather auckland").map WebSearchResult.url).all
      (fun u =>
        !((search envDown "weather auckland" 5).map WebSearchResult.url).contains u) =
      true :=
  ⟨by decide, by decide, by decide⟩

/-- C10 (amended): for every max_results of at least one (all the orchestrator
ever passes after clamping), _search_alternative returns at least one
candidate on normal return, because a synthesized fallback is appended
whenever fewer than max_results destination urls were collected; consequently
search is equivalent to the implementation searchAltOnly that consults the
multi-engine backend alone. -/
theorem claim_c10_alt_only_refinement :
    (∀ (env : Env) (q : String) (m : Nat), 1 ≤ m → searchAlternative env q m ≠ []) ∧
    (∀ (env : Env) (q : String) (mr : Int), search env q mr = searchAltOnly env q mr) := by
  have halt : ∀ (env : Env) (q : String) (m : Nat), 1 ≤ m →
      searchAlternative env q m ≠ [] :=
    fun env q m hm => alt_ne_nil env q hm
  refine ⟨halt, ?_⟩
  intro env q mr
  cases hi : env.interrupt with
  | some e => simp [search, searchBody, searchAltOnly, hi]
  | none =>
    have hm : 1 ≤ (min (max 1 mr) 10).toNat := by
      have h1 : (1 : Int) ≤ min (max 1 mr) 10 := le_min (le_max_left _ _) (by norm_num)
      calc (1 : Nat) = (1 : Int).toNat := rfl
        _ ≤ _ := Int.toNat_le_toNat h1
    simp only [search, searchBody, searchAltOnly, hi, searchPipeline]
    rw [candidates_of_alt_ne_nil env q _ (halt env q _ hm)]

theorem claim_c10_alt_only_refinement_witness :
    searchAlternative envDown "kernel" 1 ≠ [] ∧
    search envDown "kernel" 3 = searchAltOnly envDown "kernel" 3 :=
  ⟨claim_c10_alt_only_refinement.1 envDown "kernel" 1 (by decide),
   claim_c10_alt_only_refinement.2 envDown "kernel" 3⟩

/-- C10 (counterexample): called with max_results = 0 the multi-engine
backend returns normally with the empty list (the fallback guard
len(results) < max_results is false at 0 < 0), so the claim's quantification
over every max_results fails. -/
theorem claim_c10_counterexample : searchAlternative envDown "test" 0 = [] := by decide

/-! ### C5: the snippet truncation rule -/

/-- A 900-character content string whose only sentence period sits at index
600, past the midpoint of the 800-character snippet window. -/
def cC5 : String := ⟨List.replicate 600 'a' ++ '.' :: List.replicate 299 'b'⟩

/-- A 1100-character content string with no period at all. -/
def cPage : String := ⟨List.replicate 1100 'a'⟩

theorem lastDotIdx_spec :
    ∀ (l : List Char) (i : Nat), lastDotIdx l = some i →
      i < l.length ∧ l.getD i ' ' = '.' := by
  intro l
  induction l with
  | nil => intro i h; cases h
  | cons c cs ih =>
    intro i h
    unfold lastDotIdx at h
    cases hcs : lastDotIdx cs with
    | some j =>
      rw [hcs] at h
      cases h
      obtain ⟨hj1, hj2⟩ := ih j hcs
      exact ⟨Nat.succ_lt_succ hj1, by simpa [List.getD_cons_succ] using hj2⟩
    | none =>
      rw [hcs] at h
      by_cases hc : c = '.'
      · rw [if_pos hc] at h
        cases h
        exact ⟨Nat.succ_pos _, by simpa [List.getD_cons_zero] using hc⟩
      · rw [if_neg hc] at h
        cases h

set_option maxRecDepth 100000 in
/-- C5 (counterexample): the orchestrator's snippet rule ignores sentence
boundaries: on content with a period past the midpoint of the window it still
hard-truncates at 800 characters with an ellipsis instead of cutting at the
period. -/
theorem claim_c5_counterexample :
    800 < cC5.length ∧
    cC5.data.getD 600 ' ' = '.' ∧
    searchSnippet cC5 ≠ strTake cC5 601 ∧
    searchSnippet cC5 = strTake cC5 800 ++ "..." :=
  ⟨by decide, by decide, by decide, by decide⟩

/-- C5 (amended): content longer than 800 characters gets the hard-truncated
800-character window followed by an ellipsis marker, shorter content is kept
whole (never a cut beyond the window without a marker); the sentence-boundary
rule described by the claim exists only in the helper _extract_page_text
(window 1000, midpoint 500), which the orchestrator never calls. -/
theorem claim_c5_snippet_truncation (c : String) :
    (800 < c.length → searchSnippet c = strTake c 800 ++ "...") ∧
    (c.length ≤ 800 → searchSnippet c = c) ∧
    (1000 < c.length →
      pageTextTruncate c = strTake c 1000 ++ "..." ∨
      ∃ k : Nat, 500 < k ∧ k < 1000 ∧ (strTake c 1000).data.getD k ' ' = '.' ∧
        pageTextTruncate c = strTake c (k + 1)) := by
  refine ⟨?_, ?_, ?_⟩
  · intro h
    unfold searchSnippet
    rw [if_pos h]
  · intro h
    unfold searchSnippet
    rw [if_neg (not_lt.mpr h)]
  · intro h
    have hlen : (strTake c 1000).data.length = 1000 := by
      simp only [strTake, List.length_take]
      exact min_eq_left (le_of_lt h)
    unfold pageTextTruncate
    rw [if_pos h]
    cases hld : lastDotIdx (strTake c 1000).data with
    | none =>
      left
      have hr : rfindDot (strTake c 1000) = -1 := by
        unfold rfindDot
        rw [hld]
      rw [hr, if_neg (by norm_num)]
    | some j =>
      have hr : rfindDot (strTake c 1000) = (j : Int) := by
        unfold rfindDot
        rw [hld]
      obtain ⟨hj1, hj2⟩ := lastDotIdx_spec _ j hld
      rw [hlen] at hj1
      by_cases hj : 500 < j
      · right
        refine ⟨j, hj, hj1, hj2, ?_⟩
        rw [hr, if_pos (by exact_mod_cast hj)]
        have htn : ((j : Int)).toNat = j := Int.toNat_natCast j
        rw [htn]
        show (⟨(c.data.take 1000).take (j + 1)⟩ : String) = ⟨c.data.take (j + 1)⟩
        rw [List.take_take, min_eq_left (by omega)]
      · left
        rw [hr, if_neg (by exact_mod_cast hj)]

/-! ### C9: verbatim prompt framing -/

/-- a occurs verbatim (contiguously) inside b. -/
def strInfixP (a b : String) : Prop := ∃ s t : List Char, b.data = s ++ a.data ++ t

/-- b ends with a. -/
def strSuffixP (a b : String) : Prop := ∃ s : List Char, b.data = s ++ a.data

theorem strData_append (a b : String) : (a ++ b).data = a.data ++ b.data := rfl

theorem strInfixP_here (a y : String) : strInfixP a (a ++ y) :=
  ⟨[], y.data, by rw [strData_append]; rfl⟩

theorem strInfixP_left (a x y : String) (h : strInfixP a x) : strInfixP a (x ++ y) := by
  obtain ⟨s, t, hst⟩ := h
  exact ⟨s, t ++ y.data, by rw [strData_append, hst]; simp⟩

theorem strInfixP_right (a x y : String) (h : strInfixP a y) : strInfixP a (x ++ y) := by
  obtain ⟨s, t, hst⟩ := h
  exact ⟨x.data ++ s, t, by rw [strData_append, hst]; simp⟩

theorem strSuffixP_append (a x : String) : strSuffixP a (x ++ a) := ⟨x.data, rfl⟩

theorem strSuffixP_right (a x y : String) (h : strSuffixP a y) : strSuffixP a (x ++ y) := by
  obtain ⟨s, hs⟩ := h
  exact ⟨x.data ++ s, by rw [strData_append, hs]; simp⟩

theorem strInfixP_self (a : String) : strInfixP a a := ⟨[], [], by simp⟩

theorem strSuffixP_glue (x a b : String) : strSuffixP (a ++ b) ((x ++ a) ++ b) :=
  ⟨x.data, by simp [strData_append, List.append_assoc]⟩

theorem string_ne_empty_isEmpty {s : String} (h : s ≠ "") : s.isEmpty = false := by
  cases hs : s.isEmpty with
  | false => rfl
  | true => exact absurd ((String.isEmpty_iff s).mp hs) h

/-- Every result in the list contributes its title line, its snippet line
(when the snippet is non-empty) and its source line (when the url is
non-empty) verbatim to the entries block. -/
theorem searchEntries_mem_infix :
    ∀ (i : Nat) (rs : List WebSearchResult) (x : WebSearchResult), x ∈ rs →
      strInfixP x.title (searchEntries i rs) ∧
      (x.snippet ≠ "" →
        strInfixP ("   " ++ x.snippet ++ "\n") (searchEntries i rs)) ∧
      (x.url ≠ "" →
        strInfixP ("   Source: " ++ x.url ++ "\n") (searchEntries i rs)) := by
  intro i rs
  induction rs generalizing i with
  | nil => intro x hx; cases hx
  | cons r rest ih =>
    intro x hx
    rcases List.mem_cons.mp hx with rfl | hx'
    · unfold searchEntries
      refine ⟨?_, ?_, ?_⟩
      · exact strInfixP_left _ _ _ (strInfixP_left _ _ _ (strInfixP_left _ _ _
          (strInfixP_left _ _ _ (strInfixP_right _ _ _ (strInfixP_self _)))))
      · intro hs
        rw [show (if !x.snippet.isEmpty then "   " ++ x.snippet ++ "\n" else "") =
              "   " ++ x.snippet ++ "\n" from by
            rw [string_ne_empty_isEmpty hs]; rfl]
        exact strInfixP_left _ _ _ (strInfixP_left _ _ _
          (strInfixP_right _ _ _ (strInfixP_self _)))
      · intro hu
        rw [show (if !x.url.isEmpty then "   Source: " ++ x.url ++ "\n" else "") =
              "   Source: " ++ x.url ++ "\n" from by
            rw [string_ne_empty_isEmpty hu]; rfl]
        exact strInfixP_left _ _ _ (strInfixP_right _ _ _ (strInfixP_self _))
    · obtain ⟨h1, h2, h3⟩ := ih (i + 1) x hx'
      unfold searchEntries
      exact ⟨strInfixP_right _ _ _ h1,
        fun hs => strInfixP_right _ _ _ (h2 hs),
        fun hu => strInfixP_right _ _ _ (h3 hu)⟩

/-- C9: format_for_prompt returns the query unchanged on an empty result
list; on a non-empty list it frames one title/snippet/source entry per result
between the verbatim delimiter lines, followed by the instruction sentence
and the original query; the single-page sibling does the equivalent with its
page-content delimiters. -/
theorem claim_c9_prompt_framing :
    (∀ q : String, createSearchPromptEnhancement q [] = q) ∧
    (∀ (q : String) (r : WebSearchResult) (rs : List WebSearchResult),
      strInfixP "--- Web Search Results ---" (createSearchPromptEnhancement q (r :: rs)) ∧
      strInfixP "--- End Search Results ---" (createSearchPromptEnhancement q (r :: rs)) ∧
      (∀ x ∈ r :: rs,
        strInfixP x.title (createSearchPromptEnhancement q (r :: rs)) ∧
        (x.snippet ≠ "" →
          strInfixP ("   " ++ x.snippet ++ "\n") (createSearchPromptEnhancement q (r :: rs))) ∧
        (x.url ≠ "" →
          strInfixP ("   Source: " ++ x.url ++ "\n")
            (createSearchPromptEnhancement q (r :: rs)))) ∧
      strSuffixP (searchInstruction ++ q) (createSearchPromptEnhancement q (r :: rs))) ∧
    (∀ q url : String, createWebsitePromptEnhancement q "" url = q) ∧
    (∀ q url c : String, c ≠ "" →
      strInfixP ("--- Website Content from " ++ (url ++ " ---"))
        (createWebsitePromptEnhancement q c url) ∧
      strInfixP "--- End Website Content ---" (createWebsitePromptEnhancement q c url) ∧
      strInfixP c (createWebsitePromptEnhancement q c url) ∧
      strSuffixP (websiteInstruction ++ q) (createWebsitePromptEnhancement q c url)) := by
  refine ⟨fun q => rfl, ?_, fun q url => rfl, ?_⟩
  · intro q r rs
    rw [show createSearchPromptEnhancement q (r :: rs) =
          "\n\n--- Web Search Results ---\n" ++ searchEntries 1 (r :: rs) ++
            "\n--- End Search Results ---\n\n" ++ searchInstruction ++ q from rfl]
    refine ⟨?_, ?_, ?_, ?_⟩
    · exact strInfixP_left _ _ _ (strInfixP_left _ _ _ (strInfixP_left _ _ _
        (strInfixP_left _ _ _ ⟨"\n\n".data, "\n".data, by decide⟩)))
    · exact strInfixP_left _ _ _ (strInfixP_left _ _ _ (strInfixP_right _ _ _
        ⟨"\n".data, "\n\n".data, by decide⟩))
    · intro x hx
      obtain ⟨h1, h2, h3⟩ := searchEntries_mem_infix 1 (r :: rs) x hx
      exact ⟨strInfixP_left _ _ _ (strInfixP_left _ _ _ (strInfixP_left _ _ _
          (strInfixP_right _ _ _ h1))),
        fun hs => strInfixP_left _ _ _ (strInfixP_left _ _ _ (strInfixP_left _ _ _
          (strInfixP_right _ _ _ (h2 hs)))),
        fun hu => strInfixP_left _ _ _ (strInfixP_left _ _ _ (strInfixP_left _ _ _
          (strInfixP_right _ _ _ (h3 hu))))⟩
    · exact strSuffixP_glue _ _ _
  · intro q url c hc
    rw [show createWebsitePromptEnhancement q c url =
          "\n\n--- Website Content from " ++ url ++ " ---\n" ++ c ++
            "\n--- End Website Content ---\n\n" ++ websiteInstruction ++ q from by
        unfold createWebsitePromptEnhancement
        rw [string_ne_empty_isEmpty hc]; rfl]
    refine ⟨?_, ?_, ?_, ?_⟩
    · refine ⟨"\n\n".data,
        ("\n" : String).data ++ (c.data ++
          (("\n--- End Website Content ---\n\n" : String).data ++
            ((websiteInstruction).data ++ q.data))), ?_⟩
      simp [strData_append, List.append_assoc]
    · exact strInfixP_left _ _ _ (strInfixP_left _ _ _ (strInfixP_right _ _ _
        ⟨"\n".data, "\n\n".data, by decide⟩))
    · exact strInfixP_left _ _ _ (strInfixP_left _ _ _ (strInfixP_left _ _ _
        (strInfixP_right _ _ _ (strInfixP_self _))))
    · exact strSuffixP_glue _ _ _

theorem claim_c9_prompt_framing_witness :
    createSearchPromptEnhancement "q1" [] = "q1" ∧
    strSuffixP (searchInstruction ++ "q1")
      (createSearchPromptEnhancement "q1" [⟨"T", "http://u", "S"⟩]) ∧
    strInfixP "T" (createSearchPromptEnhancement "q1" [⟨"T", "http://u", "S"⟩]) ∧
    createWebsitePromptEnhancement "q2" "" "http://w" = "q2" ∧
    strInfixP "body" (createWebsitePromptEnhancement "q2" "body" "http://w") :=
  ⟨claim_c9_prompt_framing.1 "q1",
   (claim_c9_prompt_framing.2.1 "q1" ⟨"T", "http://u", "S"⟩ []).2.2.2,
   ((claim_c9_prompt_framing.2.1 "q1" ⟨"T", "http://u", "S"⟩ []).2.2.1
      ⟨"T", "http://u", "S"⟩ (List.mem_singleton.mpr rfl)).1,
   claim_c9_prompt_framing.2.2.1 "q2" "http://w",
   (claim_c9_prompt_framing.2.2.2 "q2" "http://w" "body" (by decide)).2.2.1⟩

set_option maxRecDepth 100000 in
theorem claim_c5_snippet_truncation_witness :
    searchSnippet cC5 = strTake cC5 800 ++ "..." ∧
    searchSnippet "ok." = "ok." ∧
    (pageTextTruncate cPage = strTake cPage 1000 ++ "..." ∨
      ∃ k : Nat, 500 < k ∧ k < 1000 ∧ (strTake cPage 1000).data.getD k ' ' = '.' ∧
        pageTextTruncate cPage = strTake cPage (k + 1)) :=
  ⟨(claim_c5_snippet_truncation cC5).1 (by decide),
   (claim_c5_snippet_truncation "ok.").2.1 (by decide),
   (claim_c5_snippet_truncation cPage).2.2 (by decide)⟩

/-! ### C7 and C8: the text cleaner -/

theorem mem_collapseRunsGo {p : Char → Bool} :
    ∀ (b : Bool) (l : List Char) (c : Char),
      c ∈ collapseRunsGo p b l → c = ' ' ∨ c ∈ l := by
  intro b l
  induction l generalizing b with
  | nil => intro c h; cases h
  | cons a t ih =>
    intro c h
    unfold collapseRunsGo at h
    by_cases hp : p a = true
    · rw [if_pos hp] at h
      by_cases hb : b = true
      · rw [if_pos hb] at h
        rcases ih true c h with h1 | h2
        exacts [Or.inl h1, Or.inr (List.mem_cons_of_mem _ h2)]
      · rw [if_neg hb] at h
        rcases List.mem_cons.mp h with rfl | h2
        · exact Or.inl rfl
        · rcases ih true c h2 with h1 | h3
          exacts [Or.inl h1, Or.inr (List.mem_cons_of_mem _ h3)]
    · rw [if_neg hp] at h
      rcases List.mem_cons.mp h with rfl | h2
      · exact Or.inr (List.mem_cons_self _ _)
      · rcases ih false c h2 with h1 | h3
        exacts [Or.inl h1, Or.inr (List.mem_cons_of_mem _ h3)]

theorem collapseRunsGo_mem_p {p : Char → Bool} :
    ∀ (b : Bool) (l : List Char) (c : Char),
      c ∈ collapseRunsGo p b l → p c = true → c = ' ' := by
  intro b l
  induction l generalizing b with
  | nil => intro c h; cases h
  | cons a t ih =>
    intro c h hc
    unfold collapseRunsGo at h
    by_cases hp : p a = true
    · rw [if_pos hp] at h
      by_cases hb : b = true
      · rw [if_pos hb] at h
        exact ih true c h hc
      · rw [if_neg hb] at h
        rcases List.mem_cons.mp h with rfl | h2
        · rfl
        · exact ih true c h2 hc
    · rw [if_neg hp] at h
      rcases List.mem_cons.mp h with rfl | h2
      · exact absurd hc hp
      · exact ih false c h2 hc

theorem collapseRunsGo_cons_true {p : Char → Bool} (a : Char) (t : List Char) :
    collapseRunsGo p true (a :: t) =
      if p a = true then collapseRunsGo p true t
      else a :: collapseRunsGo p false t := rfl

theorem collapseRunsGo_cons_false {p : Char → Bool} (a : Char) (t : List Char) :
    collapseRunsGo p false (a :: t) =
      if p a = true then ' ' :: collapseRunsGo p true t
      else a :: collapseRunsGo p false t := rfl

/-- Adjacent characters in the output of run collapsing are never both in the
collapsed class, and in the run state the next emitted character is outside
the class. -/
theorem collapseRunsGo_chain' {p : Char → Bool} :
    ∀ l : List Char,
      (List.Chain' (fun x y => p x = false ∨ p y = false) (collapseRunsGo p false l) ∧
       List.Chain' (fun x y => p x = false ∨ p y = false) (collapseRunsGo p true l)) ∧
      (∀ c, (collapseRunsGo p true l).head? = some c → p c = false) := by
  intro l
  induction l with
  | nil => exact ⟨⟨List.chain'_nil, List.chain'_nil⟩, fun c h => by cases h⟩
  | cons a t ih =>
    obtain ⟨⟨ihF, ihT⟩, ihH⟩ := ih
    by_cases hp : p a = true
    · have hT : collapseRunsGo p true (a :: t) = collapseRunsGo p true t := by
        rw [collapseRunsGo_cons_true, if_pos hp]
      have hF : collapseRunsGo p false (a :: t) = ' ' :: collapseRunsGo p true t := by
        rw [collapseRunsGo_cons_false, if_pos hp]
      refine ⟨⟨?_, ?_⟩, ?_⟩
      · rw [hF]
        exact List.chain'_cons'.mpr ⟨fun y hy => Or.inr (ihH y hy), ihT⟩
      · rw [hT]
        exact ihT
      · rw [hT]
        exact ihH
    · have hpf : p a = false := by
        cases hpa : p a with
        | true => exact absurd hpa hp
        | false => rfl
      have hT : collapseRunsGo p true (a :: t) = a :: collapseRunsGo p false t := by
        rw [collapseRunsGo_cons_true, if_neg hp]
      have hF : collapseRunsGo p false (a :: t) = a :: collapseRunsGo p false t := by
        rw [collapseRunsGo_cons_false, if_neg hp]
      refine ⟨⟨?_, ?_⟩, ?_⟩
      · rw [hF]
        exact List.chain'_cons'.mpr ⟨fun y _ => Or.inl hpf, ihF⟩
      · rw [hT]
        exact List.chain'_cons'.mpr ⟨fun y _ => Or.inl hpf, ihF⟩
      · rw [hT]
        intro c hc
        cases hc
        exact hpf

/-- Run collapsing is the identity on a list whose class characters are all
single spaces separated by characters outside the class. -/
theorem collapseRunsGo_eq_self {p : Char → Bool} :
    ∀ l : List Char,
      (∀ c ∈ l, p c = true → c = ' ') →
      List.Chain' (fun x y => p x = false ∨ p y = false) l →
      collapseRunsGo p false l = l ∧
      ((∀ c, l.head? = some c → p c = false) → collapseRunsGo p true l = l) := by
  intro l
  induction l with
  | nil => exact fun _ _ => ⟨rfl, fun _ => rfl⟩
  | cons a t ih =>
    intro hall hch
    obtain ⟨hrel, hch'⟩ := List.chain'_cons'.mp hch
    obtain ⟨ihF, ihT⟩ :=
      ih (fun c hc hpc => hall c (List.mem_cons_of_mem _ hc) hpc) hch'
    by_cases hp : p a = true
    · have ha : a = ' ' := hall a (List.mem_cons_self _ _) hp
      have htT : collapseRunsGo p true t = t := by
        refine ihT fun c hc => ?_
        rcases hrel c hc with h1 | h2
        · rw [h1] at hp
          cases hp
        · exact h2
      constructor
      · rw [collapseRunsGo_cons_false, if_pos hp, htT, ha]
      · intro hhead
        have hfa := hhead a rfl
        rw [hp] at hfa
        cases hfa
    · constructor
      · rw [collapseRunsGo_cons_false, if_neg hp, ihF]
      · intro _
        rw [collapseRunsGo_cons_true, if_neg hp, ihF]

theorem subNlRunGo_eq_self (k : Nat) :
    ∀ (fuel : Nat) (l : List Char), '\n' ∉ l → subNlRunGo k fuel l = l := by
  intro fuel
  induction fuel with
  | zero => intro l _; rfl
  | succ f ih =>
    intro l hl
    cases l with
    | nil => rfl
    | cons c cs =>
      unfold subNlRunGo
      rw [if_neg fun hc => hl (by rw [← hc]; exact List.mem_cons_self _ _),
        ih cs fun h => hl (List.mem_cons_of_mem _ h)]

theorem subBlank_eq_self {l : List Char} (h : '\n' ∉ l) : subBlank l = l :=
  subNlRunGo_eq_self 2 l.length l h

theorem nl_not_mem_collapseWs (l : List Char) : '\n' ∉ collapseWs l := fun h =>
  absurd (collapseRunsGo_mem_p false l '\n' h (by decide)) (by decide)

theorem stripCtl_eq_self {l : List Char} (h : ∀ c ∈ l, isStrippedCtl c = false) :
    stripCtl l = l :=
  List.filter_eq_self.mpr fun c hc => by rw [h c hc]; rfl

theorem mem_stripCtl {l : List Char} {c : Char} (h : c ∈ stripCtl l) :
    c ∈ l ∧ isStrippedCtl c = false := by
  obtain ⟨h1, h2⟩ := List.mem_filter.mp h
  refine ⟨h1, ?_⟩
  cases hic : isStrippedCtl c with
  | false => rfl
  | true => rw [hic] at h2; cases h2

theorem head?_dropWhile_not {p : Char → Bool} :
    ∀ l : List Char, ∀ c : Char, (l.dropWhile p).head? = some c → p c = false := by
  intro l
  induction l with
  | nil => intro c h; cases h
  | cons a t ih =>
    intro c h
    rw [List.dropWhile_cons] at h
    by_cases hp : p a = true
    · rw [if_pos hp] at h
      exact ih c h
    · rw [if_neg hp] at h
      cases h
      cases hpa : p a with
      | true => exact absurd hpa hp
      | false => rfl

theorem dropWhile_eq_self_of_head {p : Char → Bool} :
    ∀ l : List Char, (∀ c, l.head? = some c → p c = false) → l.dropWhile p = l := by
  intro l h
  cases l with
  | nil => rfl
  | cons a t =>
    rw [List.dropWhile_cons, if_neg]
    rw [h a rfl]
    exact fun hh => by cases hh

theorem mem_dropEndWhile {p : Char → Bool} {l : List Char} {c : Char}
    (h : c ∈ dropEndWhile p l) : c ∈ l := by
  unfold dropEndWhile at h
  rw [List.mem_reverse] at h
  exact List.mem_reverse.mp ((List.dropWhile_sublist p).subset h)

theorem head?_of_front_part {l₁ l₂ : List Char} (h : ∃ r, l₁ ++ r = l₂) {c : Char}
    (hc : l₁.head? = some c) : l₂.head? = some c := by
  obtain ⟨r, rfl⟩ := h
  cases l₁ with
  | nil => cases hc
  | cons a t =>
    cases hc
    rfl

theorem head?_dropEndWhile {p : Char → Bool} (l : List Char)
    (hl : ∀ c, l.head? = some c → p c = false) :
    ∀ c, (dropEndWhile p l).head? = some c → p c = false := by
  intro c hc
  obtain ⟨s, hs⟩ := List.dropWhile_suffix (l := l.reverse) p
  have hpre : dropEndWhile p l ++ s.reverse = l := by
    unfold dropEndWhile
    have h3 := congrArg List.reverse hs
    rw [List.reverse_append, List.reverse_reverse] at h3
    exact h3
  exact hl c (head?_of_front_part ⟨s.reverse, hpre⟩ hc)

theorem getLast?_dropEndWhile {p : Char → Bool} (l : List Char) :
    ∀ c, (dropEndWhile p l).getLast? = some c → p c = false := by
  intro c hc
  unfold dropEndWhile at hc
  rw [List.getLast?_reverse] at hc
  exact head?_dropWhile_not _ c hc

theorem chain'_dropWhile {R : Char → Char → Prop} {p : Char → Bool} :
    ∀ l : List Char, List.Chain' R l → List.Chain' R (l.dropWhile p) := by
  intro l
  induction l with
  | nil => exact fun h => h
  | cons a t ih =>
    intro h
    rw [List.dropWhile_cons]
    by_cases hp : p a = true
    · rw [if_pos hp]
      exact ih h.tail
    · rw [if_neg hp]
      exact h

theorem chain'_dropEndWhile {p : Char → Bool} {l : List Char}
    (h : List.Chain' (fun x y => p x = false ∨ p y = false) l) :
    List.Chain' (fun x y => p x = false ∨ p y = false) (dropEndWhile p l) := by
  unfold dropEndWhile
  refine List.chain'_reverse.mpr ?_
  refine chain'_dropWhile _ ?_
  exact List.chain'_reverse.mpr h

theorem dropEndWhile_eq_self_of_getLast {p : Char → Bool} (l : List Char)
    (h : ∀ c, l.getLast? = some c → p c = false) : dropEndWhile p l = l := by
  unfold dropEndWhile
  rw [dropWhile_eq_self_of_head l.reverse
    (fun c hc => h c (by rwa [List.head?_reverse] at hc)),
    List.reverse_reverse]

theorem cleanText_of_ne (s : String) (h : s ≠ "") :
    cleanText s = ⟨pyStripList (subBlank (stripCtl (collapseWs s.data)))⟩ := by
  unfold cleanText
  rw [if_neg h]

/-- The cleaned output after whitespace collapsing and control stripping:
membership in the final list implies membership in the stripped list. -/
theorem cleanText_data_sub (x : String) (hx : x ≠ "") :
    ∀ c ∈ (cleanText x).data, c ∈ stripCtl (collapseWs x.data) := by
  intro c hc
  rw [cleanText_of_ne x hx] at hc
  have hnl : '\n' ∉ stripCtl (collapseWs x.data) := fun h =>
    nl_not_mem_collapseWs x.data (mem_stripCtl h).1
  rw [show (⟨pyStripList (subBlank (stripCtl (collapseWs x.data)))⟩ : String).data =
        pyStripList (subBlank (stripCtl (collapseWs x.data))) from rfl,
      subBlank_eq_self hnl] at hc
  unfold pyStripList at hc
  exact (List.dropWhile_sublist _).subset (mem_dropEndWhile hc)

/-- C7 (amended): _clean_text is total; empty input maps to empty output; the
output contains no character of the stripped control ranges, every whitespace
character in it is a plain space (the whitespace-collapsing step turned every
run, newlines included, into one space), it contains no newline at all - so
the blank-line collapsing step never fires and no blank line survives - and
it is trimmed: it neither starts nor ends with whitespace. -/
theorem claim_c7_clean_text (x : String) :
    cleanText "" = "" ∧
    (∀ c ∈ (cleanText x).data, isStrippedCtl c = false) ∧
    (∀ c ∈ (cleanText x).data, pyIsSpace c = true → c = ' ') ∧
    '\n' ∉ (cleanText x).data ∧
    (∀ c, (cleanText x).data.head? = some c → pyIsSpace c = false) ∧
    (∀ c, (cleanText x).data.getLast? = some c → pyIsSpace c = false) := by
  by_cases hx : x = ""
  · subst hx
    refine ⟨rfl, ?_, ?_, ?_, ?_, ?_⟩ <;> simp [cleanText]
  · have hsub := cleanText_data_sub x hx
    have hnl : '\n' ∉ stripCtl (collapseWs x.data) := fun h =>
      nl_not_mem_collapseWs x.data (mem_stripCtl h).1
    have hdata : (cleanText x).data =
        pyStripList (stripCtl (collapseWs x.data)) := by
      rw [cleanText_of_ne x hx]
      rw [show (⟨pyStripList (subBlank (stripCtl (collapseWs x.data)))⟩ : String).data =
            pyStripList (subBlank (stripCtl (collapseWs x.data))) from rfl,
          subBlank_eq_self hnl]
    refine ⟨rfl, ?_, ?_, ?_, ?_, ?_⟩
    · intro c hc
      exact (mem_stripCtl (hsub c hc)).2
    · intro c hc hp
      exact collapseRunsGo_mem_p false x.data c (mem_stripCtl (hsub c hc)).1 hp
    · intro h
      exact hnl (hsub '\n' h)
    · rw [hdata]
      unfold pyStripList
      exact head?_dropEndWhile _ (head?_dropWhile_not _)
    · rw [hdata]
      unfold pyStripList
      exact getLast?_dropEndWhile _

theorem claim_c7_clean_text_witness :
    cleanText "" = "" ∧
    '\n' ∉ (cleanText "x\t\naa  bb").data ∧
    pyIsSpace 'x' = false :=
  ⟨(claim_c7_clean_text "x\t\naa  bb").1,
   (claim_c7_clean_text "x\t\naa  bb").2.2.2.1,
   (claim_c7_clean_text "x\t\naa  bb").2.2.2.2.1 'x' (by decide)⟩

/-- C7 (counterexample): three consecutive blank lines do not collapse to one
blank line - the whitespace-collapsing step has already turned them into a
single space, so no newline survives at all. -/
theorem claim_c7_counterexample :
    cleanText "a\n\n\n\nb" = "a b" ∧ '\n' ∉ (cleanText "a\n\n\n\nb").data :=
  ⟨by decide, by decide⟩

/-- C8 (amended): the cleaner is idempotent on every input containing no
character of the stripped control ranges; these are the only inputs on which
the two passes can differ, since removing a control character may merge two
spaces that a second pass would collapse. -/
theorem claim_c8_clean_idempotent (x : String)
    (h : ∀ c ∈ x.data, isStrippedCtl c = false) :
    cleanText (cleanText x) = cleanText x := by
  by_cases hx : x = ""
  · subst hx
    rfl
  · have hLa : ∀ c ∈ collapseWs x.data, pyIsSpace c = true → c = ' ' :=
      collapseRunsGo_mem_p false x.data
    have hLctl : ∀ c ∈ collapseWs x.data, isStrippedCtl c = false := by
      intro c hc
      rcases mem_collapseRunsGo false x.data c hc with rfl | hmem
      · decide
      · exact h c hmem
    have hLnl : '\n' ∉ collapseWs x.data := nl_not_mem_collapseWs x.data
    have hLch : List.Chain' (fun a b => pyIsSpace a = false ∨ pyIsSpace b = false)
        (collapseWs x.data) := (collapseRunsGo_chain' x.data).1.1
    have hclean : cleanText x = ⟨pyStripList (collapseWs x.data)⟩ := by
      rw [cleanText_of_ne x hx, stripCtl_eq_self hLctl, subBlank_eq_self hLnl]
    set M := pyStripList (collapseWs x.data) with hM
    have hMsub : ∀ c ∈ M, c ∈ collapseWs x.data := by
      intro c hc
      rw [hM] at hc
      unfold pyStripList at hc
      exact (List.dropWhile_sublist _).subset (mem_dropEndWhile hc)
    have hMhead : ∀ c, M.head? = some c → pyIsSpace c = false := by
      rw [hM]
      unfold pyStripList
      exact head?_dropEndWhile _ (head?_dropWhile_not _)
    have hMlast : ∀ c, M.getLast? = some c → pyIsSpace c = false := by
      rw [hM]
      unfold pyStripList
      exact getLast?_dropEndWhile _
    have hMch : List.Chain' (fun a b => pyIsSpace a = false ∨ pyIsSpace b = false) M := by
      rw [hM]
      unfold pyStripList
      exact chain'_dropEndWhile (chain'_dropWhile _ hLch)
    rw [hclean]
    cases hMc : M with
    | nil => decide
    | cons m M' =>
      rw [← hMc]
      have hne : (⟨M⟩ : String) ≠ "" := by
        rw [hMc]
        intro hcontra
        cases congrArg String.data hcontra
      rw [cleanText_of_ne _ hne]
      have hMdata : (⟨M⟩ : String).data = M := rfl
      rw [hMdata]
      have hcoll : collapseWs M = M :=
        (collapseRunsGo_eq_self M (fun c hc => hLa c (hMsub c hc)) hMch).1
      rw [show collapseWs M = collapseRunsGo pyIsSpace false M from rfl] at hcoll
      rw [show collapseWs M = collapseRunsGo pyIsSpace false M from rfl, hcoll]
      have hMctl : ∀ c ∈ M, isStrippedCtl c = false := fun c hc => hLctl c (hMsub c hc)
      rw [stripCtl_eq_self hMctl, subBlank_eq_self (fun hmem => by
        have := hLa '\n' (hMsub '\n' hmem) (by decide)
        cases this)]
      rw [show pyStripList M = dropEndWhile pyIsSpace (M.dropWhile pyIsSpace) from rfl]
      rw [dropWhile_eq_self_of_head M (fun c hc => hMhead c hc)]
      rw [dropEndWhile_eq_self_of_getLast M (fun c hc => hMlast c hc)]

theorem claim_c8_clean_idempotent_witness :
    (∀ c ∈ ("  hello\n\nworld  " : String).data, isStrippedCtl c = false) ∧
    cleanText (cleanText "  hello\n\nworld  ") = cleanText "  hello\n\nworld  " :=
  ⟨by decide, claim_c8_clean_idempotent "  hello\n\nworld  " (by decide)⟩

/-- C8 (counterexample): cleaning is not idempotent on all strings: removing
the control character of "a \x00 b" leaves two adjacent spaces, which a
second pass collapses. -/
theorem claim_c8_counterexample :
    cleanText (cleanText "a \x00 b") ≠ cleanText "a \x00 b" := by decide

end Mdllama
